import Mathlib

/-!
Verification of the eventblaster campaign core: the proxy-directive parser
(`parseProxyLine`), the registration worker's retry loop
(`ExecuteRegistration`), the orchestrator's job construction and result
collection (`RunJobs` / `RunResults`), and the Telegram control plane's
campaign state transitions (`handleRegister`, `handleStop`,
`campaignComplete`).

Modelling conventions: Go strings are modelled as Lean `String`s operating on
their character lists (the repository's inputs are ASCII, where Go's
byte-indexed operations coincide with character-indexed ones); wall-clock
timestamps are abstract `Nat` ticks; logging is dropped (it has no effect on
any data the claims mention); the Playwright form-submission step is the
external "attempt capability", modelled as a function parameter
`cap : Option ProxyConfig → Nat → Bool × String` from (selected proxy,
attempt number) to (success, message); the nondeterministic assignment of
jobs to pool workers is an explicit schedule parameter `assign : Nat → Nat`
(job index to executing worker index), and result arrival order is an
arbitrary permutation of the per-job results.
-/

/-! ### Character-list string primitives (Go `strings` / `strconv` semantics) -/

/-- First index of a character in a character list (Go `strings.Index` with a
one-character separator). -/
def firstIdxOf (c : Char) : List Char → Option Nat
  | [] => none
  | x :: xs => if x == c then some 0 else (firstIdxOf c xs).map (· + 1)

/-- Last index of a character in a character list (Go `strings.LastIndex`). -/
def lastIdxOf (c : Char) (l : List Char) : Option Nat :=
  (firstIdxOf c l.reverse).map fun j => l.length - 1 - j

/-- First index at which `pat` occurs as a contiguous sublist. -/
def findSubIdx (pat : List Char) : List Char → Option Nat
  | [] => if pat.isEmpty then some 0 else none
  | c :: rest =>
    if pat.isPrefixOf (c :: rest) then some 0 else (findSubIdx pat rest).map (· + 1)

/-- Go `strings.Contains`. -/
def containsSub (s pat : String) : Bool :=
  (findSubIdx pat.data s.data).isSome

/-- Split on every occurrence of a character; Go `strings.Split` with a
one-character separator (always returns at least one part). -/
def splitGoAux (c : Char) : List Char → List Char → List (List Char)
  | [], acc => [acc.reverse]
  | x :: xs, acc =>
    if x == c then acc.reverse :: splitGoAux c xs [] else splitGoAux c xs (x :: acc)

/-- Go `strings.Split(s, sep)` for a one-character `sep`. -/
def splitGo (s : String) (c : Char) : List String :=
  (splitGoAux c s.data []).map String.mk

/-- Go `strings.TrimSpace`. -/
def trimSpace (s : String) : String :=
  ⟨((s.data.dropWhile Char.isWhitespace).reverse.dropWhile Char.isWhitespace).reverse⟩

/-- Go `strings.HasPrefix`. -/
def hasPre (s pre : String) : Bool :=
  pre.data.isPrefixOf s.data

/-- Go `strings.TrimSuffix`: removes one trailing occurrence of `suf`. -/
def trimSuffixGo (s suf : String) : String :=
  if suf.data.isSuffixOf s.data then ⟨s.data.take (s.data.length - suf.data.length)⟩ else s

/-- Go slice `s[a:b]` (character-indexed model of the byte slice). -/
def substrRange (s : String) (a b : Nat) : String :=
  ⟨(s.data.drop a).take (b - a)⟩

/-- Decimal digit run to a number; `none` when empty or containing a
non-digit. -/
def digitsToNat (cs : List Char) : Option Nat :=
  if cs.isEmpty then none
  else if cs.all Char.isDigit then
    some (cs.foldl (fun a c => a * 10 + (c.toNat - 48)) 0)
  else none

/-- Go `strconv.Atoi`: optional sign, one or more decimal digits, value must
fit a 64-bit signed integer. -/
def atoi (s : String) : Option Int :=
  match s.data with
  | '+' :: rest => (digitsToNat rest).bind fun n =>
      if n ≤ 2 ^ 63 - 1 then some (Int.ofNat n) else none
  | '-' :: rest => (digitsToNat rest).bind fun n =>
      if n ≤ 2 ^ 63 then some (-(Int.ofNat n)) else none
  | cs => (digitsToNat cs).bind fun n =>
      if n ≤ 2 ^ 63 - 1 then some (Int.ofNat n) else none

/-! ### Data model (`main.go`) -/

/-- `ProxyConfig` from `main.go`: a proxy server URL plus optional
credentials. -/
structure ProxyConfig where
  server : String
  username : String := ""
  password : String := ""
  deriving DecidableEq, Repr, Inhabited

/-- `RegistrationResult` from `main.go` (the wall-clock `Timestamp` field is
external and dropped from the model). -/
structure RegistrationResult where
  email : String
  event : String
  status : String
  attempt : Nat
  message : String
  deriving DecidableEq, Repr, Inhabited

/-- `config.RegistrationRetry` from `main.go`. -/
def registrationRetry : Nat := 3

/-! ### `utils.go` -/

/-- `truncateString` from `utils.go` (character model of Go's byte slice;
coincides on ASCII). -/
def truncateString (s : String) (maxLen : Nat) : String :=
  if s.length ≤ maxLen then s else ⟨s.data.take maxLen⟩

/-- `lastPathSegment` from `utils.go`: strip one trailing `/`, split on `/`,
take the last part. -/
def lastPathSegment (url : String) : String :=
  let parts := splitGo (trimSuffixGo url "/") '/'
  match parts.getLast? with
  | some p => p
  | none => url

/-! ### Proxy directive parser (`readProxies` helper `parseProxyLine`) -/

/-- The markdown-link unwrap step of `parseProxyLine`: when the line contains
both `[` and `](`, replace it by the text between the first `[` and the first
`]` (when that range is non-degenerate). -/
def mdUnwrap (s : String) : String :=
  if containsSub s "[" && containsSub s "](" then
    match firstIdxOf '[' s.data, firstIdxOf ']' s.data with
    | some a, some b => if a < b then substrRange s (a + 1) b else s
    | _, _ => s
  else s

/-- The host/port split of a URL authority: the port follows the last `:`
and must be a non-empty digit run (Go's `validOptionalPort`), and the host
must be non-empty (the URI branch rejects a missing hostname or port). -/
def parseHostPort (hostport : List Char) : Option (List Char × List Char) :=
  match lastIdxOf ':' hostport with
  | none => none
  | some k =>
    if (hostport.take k).isEmpty then none
    else if (hostport.drop (k + 1)).isEmpty
        || !((hostport.drop (k + 1)).all Char.isDigit) then none
    else some (hostport.take k, hostport.drop (k + 1))

/-- The `scheme://host:port` normalization of the URI branch. -/
def mkServer (scheme host port : List Char) : String :=
  String.mk scheme ++ "://" ++ String.mk host ++ ":" ++ String.mk port

/-- Attach the authority's user-info (if an `@` was present) to a credential:
the username precedes the first `:` of the user-info, the password follows. -/
def withCreds (base : ProxyConfig) (hadAt : Bool) (uinfo : List Char) : ProxyConfig :=
  if hadAt then
    match firstIdxOf ':' uinfo with
    | none => { base with username := String.mk uinfo }
    | some m =>
      { base with
          username := String.mk (uinfo.take m)
          password := String.mk (uinfo.drop (m + 1)) }
  else base

/-- Modelled from the spec: the `://` branch of `parseProxyLine` delegates to
the Go standard library's `net/url.Parse`, which is not part of this
repository. Per spec rule 3 of §4.1: parse as a URI; reject if hostname or
port is missing; embedded user-info becomes username/password; `server` is
normalized to `scheme://host:port` with path, query and fragment discarded.
The scheme is the text before the first `://`; the authority runs to the
first `/`, `?` or `#`; user-info precedes the last `@` of the authority. -/
def parseURLLine (s : String) : Option ProxyConfig :=
  match findSubIdx "://".data s.data with
  | none => none
  | some i =>
    let scheme : List Char := s.data.take i
    if scheme.isEmpty then none
    else
      let rest := s.data.drop (i + 3)
      let authority := rest.takeWhile fun c => !(c == '/') && !(c == '?') && !(c == '#')
      let uinfo : List Char :=
        match lastIdxOf '@' authority with
        | some j => authority.take j
        | none => []
      let hostport : List Char :=
        match lastIdxOf '@' authority with
        | some j => authority.drop (j + 1)
        | none => authority
      match parseHostPort hostport with
      | none => none
      | some hp =>
        some (withCreds { server := mkServer scheme hp.1 hp.2 }
          (lastIdxOf '@' authority).isSome uinfo)

/-- The `USER:PASS@HOST:PORT` branch of `parseProxyLine`: the line must split
on `@` into exactly two parts, each splitting on `:` into exactly two fields,
with a numeric port; on any condition failure control falls through to the
plain colon rules (`parseColon`). -/
def parseAt (s : String) : Option ProxyConfig :=
  match splitGo s '@' with
  | [l, r] =>
    match splitGo l ':', splitGo r ':' with
    | [u, p], [h, pt] =>
      if (atoi pt).isSome then
        some { server := "http://" ++ h ++ ":" ++ pt, username := u, password := p }
      else none
    | _, _ => none
  | _ => none

/-- The plain colon rules of `parseProxyLine`: four fields resolve the
`HOST:PORT:USER:PASS` / `USER:PASS:HOST:PORT` ambiguity by testing field 1
then field 3 for numericity; two fields are bare `HOST:PORT`. -/
def parseColon (s : String) : Option ProxyConfig :=
  match splitGo s ':' with
  | [a, b, c, d] =>
    if (atoi b).isSome then
      some { server := "http://" ++ a ++ ":" ++ b, username := c, password := d }
    else if (atoi d).isSome then
      some { server := "http://" ++ c ++ ":" ++ d, username := a, password := b }
    else none
  | [a, b] =>
    if (atoi b).isSome then some { server := "http://" ++ a ++ ":" ++ b } else none
  | _ => none

/-- `parseProxyLine` from the proxy-file reader: trim, drop blanks and `#`
comments, unwrap markdown links, then try the URI branch, the `@` branch and
the plain colon branches in order (a failed `@` branch falls through to the
colon rules, as in the source). -/
def parseProxyLine (line : String) : Option ProxyConfig :=
  let s0 := trimSpace line
  if s0 = "" ∨ hasPre s0 "#" = true then none
  else
    let s := mdUnwrap s0
    if containsSub s "://" then parseURLLine s
    else
      match (if containsSub s "@" then parseAt s else none) with
      | some p => some p
      | none => parseColon s

/-! ### Registration worker (`worker.go`) -/

/-- `RegistrationWorker` from `worker.go` (the logger and headless flag have
no effect on any claimed data and are dropped). -/
structure RegistrationWorker where
  workerID : Nat
  proxies : List ProxyConfig
  telegramChatID : String
  deriving Repr

/-- The proxy selection at the top of `ExecuteRegistration`: the executing
worker's own ID modulo the proxy-list length; no proxy when the list is
empty. -/
def selectProxy (w : RegistrationWorker) : Option ProxyConfig :=
  if w.proxies.length > 0 then
    some (w.proxies.getD (w.workerID % w.proxies.length) default)
  else none

/-- The retry loop of `ExecuteRegistration` (`for attempt := 1; attempt <= R`):
`cap attempt` is one invocation of the external attempt capability; on success
return a SUCCESS result at that attempt; on failure retry while `attempt < R`
(the backoff sleep is external and dropped); on the final failed attempt emit
one Telegram alert when a chat ID is configured. Returns the result together
with the number of alert emissions. `fuel` counts the remaining loop
iterations (`R - attempt + 1` at every call). -/
def execGo (R : Nat) (chatID email event : String) (cap : Nat → Bool × String) :
    Nat → Nat → RegistrationResult × Nat
  | _, 0 => (⟨email, event, "FAILED", R, "Max retries exceeded"⟩, 0)
  | attempt, fuel + 1 =>
    let r := cap attempt
    if r.1 then (⟨email, event, "SUCCESS", attempt, r.2⟩, 0)
    else if attempt < R then execGo R chatID email event cap (attempt + 1) fuel
    else (⟨email, event, "FAILED", R, "Max retries exceeded"⟩, if chatID = "" then 0 else 1)

/-- `ExecuteRegistration` from `worker.go`: select the proxy from the worker's
own ID, then run the retry loop. The identity fields (first/last name,
organization) are fixed per campaign and absorbed into the capability `cap`.
Returns (result, number of alert emissions). -/
def ExecuteRegistration (w : RegistrationWorker) (R : Nat)
    (cap : Option ProxyConfig → Nat → Bool × String)
    (eventURL email : String) : RegistrationResult × Nat :=
  execGo R w.telegramChatID email (truncateString (lastPathSegment eventURL) 20)
    (cap (selectProxy w)) 1 R

/-! ### Task orchestrator (`RegistrationOrchestrator.Run`, `main.go`) -/

/-- The `job` record queued by `Run` (`eventURL`, `email`, and the
pre-assigned `workerID = jobIndex % maxWorkers`). -/
structure Job where
  eventURL : String
  email : String
  workerID : Nat
  deriving DecidableEq, Repr

/-- The target-major, identity-minor cross product enumerated by `Run`'s
nested queueing loops. -/
def jobPairs : List String → List String → List (String × String)
  | [], _ => []
  | t :: ts, emails => (emails.map fun e => (t, e)) ++ jobPairs ts emails

/-- The job list `Run` enqueues: the cross product with each job's
pre-assigned `workerID = jobIndex % maxWorkers`. -/
def RunJobs (eventURLs emails : List String) (maxWorkers : Nat) : List Job :=
  (jobPairs eventURLs emails).enum.map fun p =>
    { eventURL := p.2.1, email := p.2.2, workerID := p.1 % maxWorkers }

/-- The per-job results of one complete run of `Run` under an explicit
schedule: job `i` is pulled from the shared channel and executed by pool
worker `assign i` (a schedule is legal when `assign i < maxWorkers`), whose
`RegistrationWorker` carries that worker's own ID; `cap i` is the attempt
capability for job `i`. The list `Run` actually returns is an arrival-order
permutation of this list (results traverse a shared channel). -/
def RunResults (eventURLs emails : List String) (proxies : List ProxyConfig)
    (R : Nat) (chatID : String) (maxWorkers : Nat)
    (cap : Nat → Option ProxyConfig → Nat → Bool × String)
    (assign : Nat → Nat) : List RegistrationResult :=
  (RunJobs eventURLs emails maxWorkers).enum.map fun p =>
    (ExecuteRegistration ⟨assign p.1, proxies, chatID⟩ R (cap p.1)
      p.2.eventURL p.2.email).1

/-! ### Campaign control plane (`telegram_bot.go`) -/

/-- `CampaignManager`'s mutable state (`running`, `startTime`, `results`);
time is an abstract tick. -/
structure CampaignState where
  running : Bool
  startTime : Nat
  results : List RegistrationResult
  deriving DecidableEq, Repr

/-- Per-user configuration relevant to launching (`UserConfig`). -/
structure UserConfig where
  firstName : String
  lastName : String
  organization : String
  maxWorkers : Nat
  deriving DecidableEq, Repr

def setupFirstMsg : String := "❌ Please run /setup first to configure your details"

def alreadyRunningMsg : String := "⚠️ Campaign already running!\n\nSend /stop first"

def emailsLoadFailMsg : String := "❌ Failed to load emails"

def eventsLoadFailMsg : String := "❌ Failed to load events"

def campaignStartedMsg : String := "🚀 Campaign Started!"

def noCampaignMsg : String := "⏸️ No campaign running"

def stopRequestedMsg : String := "⏹️ Campaign stop requested\n\nWaiting for current tasks..."

/-- The synchronous part of `handleRegister` from `telegram_bot.go`: reject
when identity fields are empty; reject when a campaign is already running;
otherwise mark the campaign running, snapshot the start time, clear prior
results, and bail out (resetting `running`) when either input file fails to
load. File reads are modelled by their outcomes (`none` = read error).
Returns the new campaign state and the messages sent to the user. -/
def handleRegister (cfg : UserConfig) (st : CampaignState) (now : Nat)
    (emailsLoad eventsLoad : Option (List String)) : CampaignState × List String :=
  if cfg.firstName = "" ∨ cfg.lastName = "" ∨ cfg.organization = "" then
    (st, [setupFirstMsg])
  else if st.running then
    (st, [alreadyRunningMsg])
  else
    let st1 : CampaignState := { running := true, startTime := now, results := [] }
    match emailsLoad with
    | none => ({ st1 with running := false }, [emailsLoadFailMsg])
    | some _ =>
      match eventsLoad with
      | none => ({ st1 with running := false }, [eventsLoadFailMsg])
      | some _ => (st1, [campaignStartedMsg])

/-- The tail of `runCampaign` from `telegram_bot.go`: when the orchestrator
returns, store its results and clear the running flag. -/
def campaignComplete (st : CampaignState) (results : List RegistrationResult) :
    CampaignState :=
  { st with results := results, running := false }

/-- `handleStop` from `telegram_bot.go`: when no campaign is running just say
so; otherwise flip `running` to false and acknowledge—nothing else changes. -/
def handleStop (st : CampaignState) : CampaignState × List String :=
  if !st.running then (st, [noCampaignMsg])
  else ({ st with running := false }, [stopRequestedMsg])

/-! ### Concrete capabilities and schedules used by witnesses and
counterexamples -/

/-- An attempt capability that fails on every invocation. -/
def capAlwaysFail : Option ProxyConfig → Nat → Bool × String :=
  fun _ _ => (false, "boom")

/-- An attempt capability that succeeds on the first try of every job. -/
def capAlwaysOk : Nat → Option ProxyConfig → Nat → Bool × String :=
  fun _ _ _ => (true, "ok")

/-- An attempt capability that succeeds immediately and reports which proxy it
was handed, making the worker's proxy selection observable in the result. -/
def capShowProxy : Nat → Option ProxyConfig → Nat → Bool × String :=
  fun _ pr _ => (true, match pr with | some p => p.server | none => "direct")

/-- A per-job capability that first succeeds on attempt 2. -/
def capSecondTry : Option ProxyConfig → Nat → Bool × String :=
  fun _ a => (a == 2, "ok")

/-- The schedule in which job `i` is executed by pool worker `i % 2`. -/
def assignMod2 : Nat → Nat := fun i => i % 2

/-- A legal 2-worker schedule in which job `i` is executed by pool worker
`(i + 1) % 2` — in particular job 0 runs on worker 1. -/
def assignShift2 : Nat → Nat := fun i => (i + 1) % 2

/-- Follows the spec's words (§3 `ProxyCredential` invariant, claim C6) for
comparison with the code: `server` has the form `scheme://host:port` with a
non-empty scheme, a non-empty host and a numeric port. A URL scheme precedes
the first `://` and a port follows the last `:`, so the decomposition checked
here is the canonical one. -/
def specServerForm (sv : String) : Bool :=
  match findSubIdx "://".data sv.data with
  | none => false
  | some i =>
    let scheme := sv.data.take i
    let rest := sv.data.drop (i + 3)
    match lastIdxOf ':' rest with
    | none => false
    | some j =>
      let host := rest.take j
      let port := rest.drop (j + 1)
      !scheme.isEmpty && !host.isEmpty && !port.isEmpty && port.all Char.isDigit

/-! ### Helper lemmas -/

theorem execGo_fields (R : Nat) (chatID email event : String) (cap : Nat → Bool × String) :
    ∀ fuel attempt,
      (execGo R chatID email event cap attempt fuel).1.email = email ∧
      (execGo R chatID email event cap attempt fuel).1.event = event
  | 0, _ => ⟨rfl, rfl⟩
  | fuel + 1, attempt => by
    simp only [execGo]
    split
    · exact ⟨rfl, rfl⟩
    · split
      · exact execGo_fields R chatID email event cap fuel (attempt + 1)
      · exact ⟨rfl, rfl⟩

theorem execGo_spec (R : Nat) (chatID email event : String) (cap : Nat → Bool × String) :
    ∀ fuel attempt, 1 ≤ attempt → attempt ≤ R → attempt + fuel = R + 1 →
      ((execGo R chatID email event cap attempt fuel).1.status = "SUCCESS" ∨
        (execGo R chatID email event cap attempt fuel).1.status = "FAILED") ∧
      ((execGo R chatID email event cap attempt fuel).1.status = "SUCCESS" →
        attempt ≤ (execGo R chatID email event cap attempt fuel).1.attempt ∧
        (execGo R chatID email event cap attempt fuel).1.attempt ≤ R ∧
        (cap (execGo R chatID email event cap attempt fuel).1.attempt).1 = true ∧
        (∀ k, attempt ≤ k → k < (execGo R chatID email event cap attempt fuel).1.attempt →
          (cap k).1 = false) ∧
        (execGo R chatID email event cap attempt fuel).2 = 0) ∧
      ((execGo R chatID email event cap attempt fuel).1.status = "FAILED" →
        (execGo R chatID email event cap attempt fuel).1.attempt = R ∧
        (execGo R chatID email event cap attempt fuel).1.message = "Max retries exceeded" ∧
        (∀ k, attempt ≤ k → k ≤ R → (cap k).1 = false) ∧
        (execGo R chatID email event cap attempt fuel).2 = (if chatID = "" then 0 else 1))
  | 0, attempt => by
    intro _ h2 h3
    exact absurd h3 (by omega)
  | fuel + 1, attempt => by
    intro h1 h2 h3
    simp only [execGo]
    split
    case isTrue hc =>
      refine ⟨Or.inl rfl, fun _ => ⟨le_refl _, h2, hc, ?_, rfl⟩, fun hst => by simp at hst⟩
      intro k hk1 hk2
      exact absurd (lt_of_le_of_lt hk1 hk2) (lt_irrefl _)
    case isFalse hc =>
      have hcf : (cap attempt).1 = false := by
        cases h : (cap attempt).1
        · rfl
        · exact absurd h hc
      split
      case isTrue hlt =>
        have ih := execGo_spec R chatID email event cap fuel (attempt + 1)
          (by omega) (by omega) (by omega)
        refine ⟨ih.1, ?_, ?_⟩
        · intro hs
          obtain ⟨q1, q2, q3, q4, q5⟩ := ih.2.1 hs
          refine ⟨by omega, q2, q3, ?_, q5⟩
          intro k hk1 hk2
          rcases Nat.eq_or_lt_of_le hk1 with heq | hlt2
          · rw [← heq]; exact hcf
          · exact q4 k hlt2 hk2
        · intro hs
          obtain ⟨q1, q2, q3, q4⟩ := ih.2.2 hs
          refine ⟨q1, q2, ?_, q4⟩
          intro k hk1 hk2
          rcases Nat.eq_or_lt_of_le hk1 with heq | hlt2
          · rw [← heq]; exact hcf
          · exact q3 k hlt2 hk2
      case isFalse hge =>
        have hAR : attempt = R := by omega
        refine ⟨Or.inr rfl, fun hst => by simp at hst, fun _ => ⟨rfl, rfl, ?_, rfl⟩⟩
        intro k hk1 hk2
        have : k = attempt := by omega
        rw [this]; exact hcf

theorem length_jobPairs (ts es : List String) :
    (jobPairs ts es).length = ts.length * es.length := by
  induction ts with
  | nil => simp [jobPairs]
  | cons t ts ih =>
    simp [jobPairs, ih, Nat.succ_mul, Nat.add_comm]

theorem length_RunJobs (ts es : List String) (W : Nat) :
    (RunJobs ts es W).length = ts.length * es.length := by
  simp [RunJobs, length_jobPairs]

theorem length_RunResults (ts es : List String) (proxies : List ProxyConfig)
    (R : Nat) (chatID : String) (W : Nat)
    (cap : Nat → Option ProxyConfig → Nat → Bool × String) (assign : Nat → Nat) :
    (RunResults ts es proxies R chatID W cap assign).length = ts.length * es.length := by
  simp [RunResults, length_RunJobs]

theorem RunJobs_map_pair (ts es : List String) (W : Nat) :
    ((RunJobs ts es W).map fun j => (j.eventURL, j.email)) = jobPairs ts es := by
  simp only [RunJobs, List.map_map]
  have : ((fun j : Job => (j.eventURL, j.email)) ∘ fun p : Nat × String × String =>
      ({ eventURL := p.2.1, email := p.2.2, workerID := p.1 % W } : Job)) =
      fun p : Nat × String × String => p.2 := by
    funext p
    rfl
  rw [this, List.enum_map_snd]

theorem count_block (t' t e : String) (es : List String) :
    ((es.map fun e' => (t', e')).count (t, e)) = if t' = t then es.count e else 0 := by
  induction es with
  | nil => simp
  | cons e' es ih =>
    by_cases h1 : t' = t <;> by_cases h2 : e' = e <;>
      simp_all [List.count_cons, Prod.ext_iff, eq_comm]

theorem count_pair_not_mem (ts es : List String) (t e : String) (ht : t ∉ ts) :
    (jobPairs ts es).count (t, e) = 0 := by
  induction ts with
  | nil => simp [jobPairs]
  | cons t' ts ih =>
    have hne : t' ≠ t := fun h => ht (by simp [h])
    have hnm : t ∉ ts := fun h => ht (by simp [h])
    simp [jobPairs, List.count_append, count_block, hne, ih hnm]

theorem count_pair_eq_one (ts es : List String) (t e : String)
    (hts : ts.Nodup) (hes : es.Nodup) (ht : t ∈ ts) (he : e ∈ es) :
    (jobPairs ts es).count (t, e) = 1 := by
  induction ts with
  | nil => cases ht
  | cons t' ts ih =>
    rw [List.nodup_cons] at hts
    rcases List.mem_cons.mp ht with heq | hmem
    · have hnm : t ∉ ts := by rw [← heq] at hts; exact hts.1
      simp [jobPairs, List.count_append, count_block, heq.symm,
        count_pair_not_mem ts es t e hnm, List.count_eq_one_of_mem hes he]
    · have hne : t' ≠ t := fun h => hts.1 (h ▸ hmem)
      simp [jobPairs, List.count_append, count_block, hne, ih hts.2 hmem]

/-! ### Claim theorems -/

/-- C1: for every targets list of size `T`, identities list of size `I`, and
concurrency `C ≥ 1`, any result list the orchestrator's `Run` can return
(i.e., any arrival-order permutation of the per-job results, under any legal
job-to-worker schedule) has exactly `T * I` elements, and — for duplicate-free
input lists — every (target, identity) pair is carried by exactly one
enqueued job, hence by exactly one result. -/
theorem c1_run_returns_all_pairs
    (ts es : List String) (proxies : List ProxyConfig) (R W : Nat) (chatID : String)
    (cap : Nat → Option ProxyConfig → Nat → Bool × String) (assign : Nat → Nat)
    (out : List RegistrationResult)
    (_hW : 1 ≤ W) (_hlegal : ∀ i, assign i < W)
    (hout : out.Perm (RunResults ts es proxies R chatID W cap assign))
    (hts : ts.Nodup) (hes : es.Nodup) (t e : String) (ht : t ∈ ts) (he : e ∈ es) :
    out.length = ts.length * es.length ∧
    ((RunJobs ts es W).map fun j => (j.eventURL, j.email)).count (t, e) = 1 := by
  constructor
  · rw [hout.length_eq]
    exact length_RunResults ts es proxies R chatID W cap assign
  · rw [RunJobs_map_pair]
    exact count_pair_eq_one ts es t e hts hes ht he

/-- C1 witness: two targets, two identities, concurrency 2, the always-succeed
capability and the round-robin schedule. -/
theorem c1_witness :
    (RunResults ["t1", "t2"] ["a@x.com", "b@x.com"] [] 3 "" 2 capAlwaysOk
        assignMod2).length = 2 * 2 ∧
    ((RunJobs ["t1", "t2"] ["a@x.com", "b@x.com"] 2).map fun j =>
        (j.eventURL, j.email)).count ("t1", "a@x.com") = 1 :=
  c1_run_returns_all_pairs ["t1", "t2"] ["a@x.com", "b@x.com"] [] 3 2 "" capAlwaysOk
    assignMod2 _ (by decide) (fun i => Nat.mod_lt i (by decide)) (List.Perm.refl _)
    (by decide) (by decide) "t1" "a@x.com" (by decide) (by decide)

/-- C2 counterexample: with the always-failing capability, retry ceiling 3 and
an alert destination configured, a job emits exactly ONE alert (on the final
attempt), not `R = 3`, and the terminal message is "Max retries exceeded",
not "max retries exceeded". -/
theorem c2_counterexample :
    (ExecuteRegistration ⟨0, [], "chat"⟩ 3 capAlwaysFail "http://x/e" "a@x.com").2 = 1 ∧
    (1 : Nat) ≠ 3 ∧
    (ExecuteRegistration ⟨0, [], "chat"⟩ 3 capAlwaysFail "http://x/e" "a@x.com").1.message
      ≠ "max retries exceeded" := by
  refine ⟨by decide, by decide, by decide⟩

/-- C2 amended: if the attempt capability fails on every invocation and an
alert destination is configured, then each job emits exactly one alert (on
the final attempt), and its result is FAILED with `attempt = R` and message
"Max retries exceeded". -/
theorem c2_always_fail_behaviour (w : RegistrationWorker) (R : Nat)
    (cap : Option ProxyConfig → Nat → Bool × String) (eventURL email : String)
    (hR : 1 ≤ R) (hchat : w.telegramChatID ≠ "")
    (hfail : ∀ pr a, (cap pr a).1 = false) :
    (ExecuteRegistration w R cap eventURL email).2 = 1 ∧
    (ExecuteRegistration w R cap eventURL email).1.status = "FAILED" ∧
    (ExecuteRegistration w R cap eventURL email).1.attempt = R ∧
    (ExecuteRegistration w R cap eventURL email).1.message = "Max retries exceeded" := by
  have h := execGo_spec R w.telegramChatID email
    (truncateString (lastPathSegment eventURL) 20) (cap (selectProxy w)) R 1
    (le_refl 1) hR (by omega)
  rcases h.1 with hs | hf
  · obtain ⟨_, _, hcap, _, _⟩ := h.2.1 hs
    rw [hfail (selectProxy w) _] at hcap
    cases hcap
  · obtain ⟨q1, q2, _, q4⟩ := h.2.2 hf
    refine ⟨?_, hf, q1, q2⟩
    show (execGo R w.telegramChatID email (truncateString (lastPathSegment eventURL) 20)
      (cap (selectProxy w)) 1 R).2 = 1
    rw [q4, if_neg hchat]

/-- C2 witness: the amended behaviour at retry ceiling 3, chat ID "chat" and
the always-failing capability. -/
theorem c2_witness :
    (ExecuteRegistration ⟨0, [], "chat"⟩ 3 capAlwaysFail "http://x/e" "a@x.com").2 = 1 ∧
    (ExecuteRegistration ⟨0, [], "chat"⟩ 3 capAlwaysFail "http://x/e" "a@x.com").1.status
      = "FAILED" ∧
    (ExecuteRegistration ⟨0, [], "chat"⟩ 3 capAlwaysFail "http://x/e" "a@x.com").1.attempt
      = 3 ∧
    (ExecuteRegistration ⟨0, [], "chat"⟩ 3 capAlwaysFail "http://x/e" "a@x.com").1.message
      = "Max retries exceeded" :=
  c2_always_fail_behaviour ⟨0, [], "chat"⟩ 3 capAlwaysFail "http://x/e" "a@x.com"
    (by decide) (by decide) (fun _ _ => rfl)

/-- C7: every worker result's `attempt` lies between 1 and the retry ceiling
`R`; a SUCCESS result's `attempt` is the attempt number at which the
capability first reported success, and a FAILED result's `attempt` equals
`R`. -/
theorem c7_attempt_field_sound (w : RegistrationWorker) (R : Nat)
    (cap : Option ProxyConfig → Nat → Bool × String) (eventURL email : String)
    (hR : 1 ≤ R) :
    (1 ≤ (ExecuteRegistration w R cap eventURL email).1.attempt ∧
      (ExecuteRegistration w R cap eventURL email).1.attempt ≤ R) ∧
    ((ExecuteRegistration w R cap eventURL email).1.status = "SUCCESS" →
      (cap (selectProxy w) (ExecuteRegistration w R cap eventURL email).1.attempt).1
        = true ∧
      ∀ k, 1 ≤ k → k < (ExecuteRegistration w R cap eventURL email).1.attempt →
        (cap (selectProxy w) k).1 = false) ∧
    ((ExecuteRegistration w R cap eventURL email).1.status = "FAILED" →
      (ExecuteRegistration w R cap eventURL email).1.attempt = R) := by
  have h := execGo_spec R w.telegramChatID email
    (truncateString (lastPathSegment eventURL) 20) (cap (selectProxy w)) R 1
    (le_refl 1) hR (by omega)
  rw [ExecuteRegistration]
  refine ⟨?_, ?_, fun hf => (h.2.2 hf).1⟩
  · rcases h.1 with hs | hf
    · obtain ⟨q1, q2, _⟩ := h.2.1 hs
      exact ⟨q1, q2⟩
    · rw [(h.2.2 hf).1]
      exact ⟨hR, le_refl R⟩
  · intro hs
    obtain ⟨_, _, q3, q4, _⟩ := h.2.1 hs
    exact ⟨q3, q4⟩

/-- C7 witness: a capability that first succeeds on attempt 2, with retry
ceiling 3. -/
theorem c7_witness :
    (1 ≤ (ExecuteRegistration ⟨0, [], ""⟩ 3 capSecondTry "http://x/e" "a").1.attempt ∧
      (ExecuteRegistration ⟨0, [], ""⟩ 3 capSecondTry "http://x/e" "a").1.attempt ≤ 3) ∧
    ((ExecuteRegistration ⟨0, [], ""⟩ 3 capSecondTry "http://x/e" "a").1.status = "SUCCESS" →
      (capSecondTry (selectProxy ⟨0, [], ""⟩)
          (ExecuteRegistration ⟨0, [], ""⟩ 3 capSecondTry "http://x/e" "a").1.attempt).1
        = true ∧
      ∀ k, 1 ≤ k →
        k < (ExecuteRegistration ⟨0, [], ""⟩ 3 capSecondTry "http://x/e" "a").1.attempt →
        (capSecondTry (selectProxy ⟨0, [], ""⟩) k).1 = false) ∧
    ((ExecuteRegistration ⟨0, [], ""⟩ 3 capSecondTry "http://x/e" "a").1.status = "FAILED" →
      (ExecuteRegistration ⟨0, [], ""⟩ 3 capSecondTry "http://x/e" "a").1.attempt = 3) :=
  c7_attempt_field_sound ⟨0, [], ""⟩ 3 capSecondTry "http://x/e" "a" (by decide)

/-- C8: a launch attempt while the global running flag is already true is
rejected with a user-facing message ("already running") and leaves the
campaign state — in particular `results` and `startTime` — unchanged. -/
theorem c8_launch_rejected_while_running (cfg : UserConfig) (st : CampaignState)
    (now : Nat) (emailsLoad eventsLoad : Option (List String))
    (h1 : cfg.firstName ≠ "") (h2 : cfg.lastName ≠ "") (h3 : cfg.organization ≠ "")
    (hr : st.running = true) :
    handleRegister cfg st now emailsLoad eventsLoad = (st, [alreadyRunningMsg]) ∧
    (handleRegister cfg st now emailsLoad eventsLoad).1.results = st.results ∧
    (handleRegister cfg st now emailsLoad eventsLoad).1.startTime = st.startTime := by
  have heq : handleRegister cfg st now emailsLoad eventsLoad = (st, [alreadyRunningMsg]) := by
    rw [handleRegister, if_neg (by simp [h1, h2, h3]), if_pos hr]
  exact ⟨heq, by rw [heq], by rw [heq]⟩

/-- C8 witness: a configured user and a running campaign state with cached
results. -/
theorem c8_witness :
    handleRegister ⟨"Ann", "Lee", "Acme", 20⟩ ⟨true, 7, [⟨"a", "e", "SUCCESS", 1, "ok"⟩]⟩
        5 (some ["a"]) (some ["t"]) =
      (⟨true, 7, [⟨"a", "e", "SUCCESS", 1, "ok"⟩]⟩, [alreadyRunningMsg]) ∧
    (handleRegister ⟨"Ann", "Lee", "Acme", 20⟩ ⟨true, 7, [⟨"a", "e", "SUCCESS", 1, "ok"⟩]⟩
        5 (some ["a"]) (some ["t"])).1.results = [⟨"a", "e", "SUCCESS", 1, "ok"⟩] ∧
    (handleRegister ⟨"Ann", "Lee", "Acme", 20⟩ ⟨true, 7, [⟨"a", "e", "SUCCESS", 1, "ok"⟩]⟩
        5 (some ["a"]) (some ["t"])).1.startTime = 7 :=
  c8_launch_rejected_while_running ⟨"Ann", "Lee", "Acme", 20⟩
    ⟨true, 7, [⟨"a", "e", "SUCCESS", 1, "ok"⟩]⟩ 5 (some ["a"]) (some ["t"])
    (by decide) (by decide) (by decide) rfl

/-- C9: a stop request on a running campaign flips `running` to false and
acknowledges, leaving `results` and `startTime` untouched; it does not stop
in-flight work — the completion handler still stores the orchestrator's
results and again sets `running := false`, so stop followed by completion
leaves `running` false idempotently. -/
theorem c9_stop_is_advisory (st : CampaignState) (hr : st.running = true)
    (res : List RegistrationResult) :
    (handleStop st).1.running = false ∧
    (handleStop st).1.results = st.results ∧
    (handleStop st).1.startTime = st.startTime ∧
    (handleStop st).2 = [stopRequestedMsg] ∧
    (campaignComplete (handleStop st).1 res).results = res ∧
    (campaignComplete (handleStop st).1 res).running = false := by
  rw [handleStop, hr]
  exact ⟨rfl, rfl, rfl, rfl, rfl, rfl⟩

/-- C9 witness: stopping a concrete running campaign, then completing with a
one-element result list. -/
theorem c9_witness :
    (handleStop ⟨true, 7, []⟩).1.running = false ∧
    (handleStop ⟨true, 7, []⟩).1.results = [] ∧
    (handleStop ⟨true, 7, []⟩).1.startTime = 7 ∧
    (handleStop ⟨true, 7, []⟩).2 = [stopRequestedMsg] ∧
    (campaignComplete (handleStop ⟨true, 7, []⟩).1 [⟨"a", "e", "FAILED", 3, "m"⟩]).results
      = [⟨"a", "e", "FAILED", 3, "m"⟩] ∧
    (campaignComplete (handleStop ⟨true, 7, []⟩).1 [⟨"a", "e", "FAILED", 3, "m"⟩]).running
      = false :=
  c9_stop_is_advisory ⟨true, 7, []⟩ rfl [⟨"a", "e", "FAILED", 3, "m"⟩]

/-- C10 counterexample: for the target URL "event" (accepted by the event-file
reader, which keeps any line containing "event"), the result's `Event` field
equals the full target URL, so the full target URL does appear in a result. -/
theorem c10_counterexample :
    (ExecuteRegistration ⟨0, [], ""⟩ 3 (capAlwaysOk 0) "event" "a@x.com").1.event
      = "event" := by decide

/-- C10 amended: every worker result's `Event` field equals the last
`/`-separated segment of the target URL (after stripping one trailing `/`)
truncated to at most 20 characters, and its length never exceeds 20; the full
target URL can still appear as the `Event` when the URL equals its own
truncated last path segment (e.g. a short URL with no `/`). -/
theorem c10_event_field (w : RegistrationWorker) (R : Nat)
    (cap : Option ProxyConfig → Nat → Bool × String) (eventURL email : String) :
    (ExecuteRegistration w R cap eventURL email).1.event
      = truncateString (lastPathSegment eventURL) 20 ∧
    (ExecuteRegistration w R cap eventURL email).1.event.length ≤ 20 := by
  have h := (execGo_fields R w.telegramChatID email
    (truncateString (lastPathSegment eventURL) 20) (cap (selectProxy w)) R 1).2
  rw [ExecuteRegistration]
  refine ⟨h, ?_⟩
  rw [h, truncateString]
  split
  case isTrue hle => exact hle
  case isFalse hgt =>
    have hmk : (String.mk ((lastPathSegment eventURL).data.take 20)).length
        = ((lastPathSegment eventURL).data.take 20).length := rfl
    rw [hmk, List.length_take]
    exact Nat.min_le_left _ _

/-- C3 counterexample: two proxies, two workers, one target, two identities.
Job 0's pre-assigned worker index is `0 % 2 = 0`, so per the claim its proxy
would be `proxies[0]` (server "http://p0:1"). Under the legal schedule that
hands job 0 to pool worker 1 (workers pull jobs from a shared channel, so any
worker may take any job), the proxy actually handed to the attempt capability
— reported back in the result message by `capShowProxy` — is `proxies[1]`
(server "http://p1:1"), not `proxies[0]`: the pre-assigned index does not
determine the proxy. -/
theorem c3_counterexample :
    ((RunResults ["t"] ["a", "b"] [⟨"http://p0:1", "", ""⟩, ⟨"http://p1:1", "", ""⟩]
        3 "" 2 capShowProxy assignShift2).map fun r => r.message)
      = ["http://p1:1", "http://p0:1"] ∧
    (RunJobs ["t"] ["a", "b"] 2).map (fun j => j.workerID) = [0, 1] ∧
    ("http://p1:1" : String) ≠ "http://p0:1" := by
  refine ⟨by decide, by decide, by decide⟩

/-- C3 amended: the proxy used when executing a job is determined by the pool
worker that actually executes it (the schedule), not by the job's pre-assigned
`workerID` field: the result of job `idx` is produced by a worker whose ID is
`assign idx`, and that worker selects `proxies[assign idx % len(proxies)]`
(no proxy when the proxy list is empty). -/
theorem c3_proxy_follows_executing_worker
    (ts es : List String) (proxies : List ProxyConfig) (R W : Nat) (chatID : String)
    (cap : Nat → Option ProxyConfig → Nat → Bool × String) (assign : Nat → Nat)
    (idx : Nat) (pair : String × String)
    (hpair : (jobPairs ts es)[idx]? = some pair) :
    (RunResults ts es proxies R chatID W cap assign)[idx]?
      = some ((ExecuteRegistration ⟨assign idx, proxies, chatID⟩ R (cap idx)
          pair.1 pair.2).1) ∧
    selectProxy ⟨assign idx, proxies, chatID⟩
      = (if proxies.length = 0 then none
         else some (proxies.getD (assign idx % proxies.length) default)) := by
  constructor
  · rw [RunResults, RunJobs, List.getElem?_map, List.getElem?_enum, List.getElem?_map,
      List.getElem?_enum, hpair]
    rfl
  · simp only [selectProxy]
    rcases Nat.eq_zero_or_pos proxies.length with hz | hp
    · rw [if_neg (by omega), if_pos hz]
    · rw [if_pos hp, if_neg (by omega)]

/-- C3 witness: the amended statement at job index 0 of a concrete run. -/
theorem c3_witness :
    (RunResults ["t"] ["a", "b"] [⟨"http://p0:1", "", ""⟩, ⟨"http://p1:1", "", ""⟩]
        3 "" 2 capShowProxy assignShift2)[0]?
      = some ((ExecuteRegistration
          ⟨assignShift2 0, [⟨"http://p0:1", "", ""⟩, ⟨"http://p1:1", "", ""⟩], ""⟩ 3
          (capShowProxy 0) "t" "a").1) ∧
    selectProxy ⟨assignShift2 0, [⟨"http://p0:1", "", ""⟩, ⟨"http://p1:1", "", ""⟩], ""⟩
      = (if ([⟨"http://p0:1", "", ""⟩, ⟨"http://p1:1", "", ""⟩] : List ProxyConfig).length
            = 0 then none
         else some (([⟨"http://p0:1", "", ""⟩, ⟨"http://p1:1", "", ""⟩] :
            List ProxyConfig).getD (assignShift2 0 %
              ([⟨"http://p0:1", "", ""⟩, ⟨"http://p1:1", "", ""⟩] :
                List ProxyConfig).length) default)) :=
  c3_proxy_follows_executing_worker ["t"] ["a", "b"]
    [⟨"http://p0:1", "", ""⟩, ⟨"http://p1:1", "", ""⟩] 3 2 "" capShowProxy assignShift2
    0 ("t", "a") (by decide)

theorem atoi_isSome_ne_empty (s : String) (h : (atoi s).isSome = true) : s ≠ "" := by
  intro heq
  rw [heq] at h
  exact absurd h (by decide)

theorem parseProxyLine_plain (s : String)
    (htrim : trimSpace s = s) (hne : s ≠ "") (hhash : hasPre s "#" = false)
    (hmd : (containsSub s "[" && containsSub s "](") = false)
    (hurl : containsSub s "://" = false) :
    parseProxyLine s =
      (match (if containsSub s "@" then parseAt s else none) with
       | some p => some p
       | none => parseColon s) := by
  have hmu : mdUnwrap s = s := by
    rw [mdUnwrap, if_neg (by simp [hmd])]
  unfold parseProxyLine
  rw [htrim, if_neg (by simp [hne, hhash]), hmu, if_neg (by simp [hurl])]

/-- C4: a trimmed, non-comment, non-markdown proxy line with no `://` and no
`@` that splits on `:` into exactly four fields is resolved by testing field 1
(the `host:port:user:pass` reading) before field 3 (the `user:pass:host:port`
reading) for parsing as an integer; the first reading whose candidate port is
numeric wins — so when both are numeric the host:port-first reading wins —
and the produced scheme is `http`. -/
theorem c4_four_field_disambiguation (s a b c d : String)
    (htrim : trimSpace s = s) (hne : s ≠ "") (hhash : hasPre s "#" = false)
    (hmd : (containsSub s "[" && containsSub s "](") = false)
    (hurl : containsSub s "://" = false) (hat : containsSub s "@" = false)
    (hsplit : splitGo s ':' = [a, b, c, d]) :
    parseProxyLine s =
      (if (atoi b).isSome then
        some { server := "http://" ++ a ++ ":" ++ b, username := c, password := d }
      else if (atoi d).isSome then
        some { server := "http://" ++ c ++ ":" ++ d, username := a, password := b }
      else none) := by
  rw [parseProxyLine_plain s htrim hne hhash hmd hurl, if_neg (by simp [hat])]
  rw [parseColon, hsplit]

/-- C4 witness: the line "h:8080:u:p" (field 1 numeric, field 3 not). -/
theorem c4_witness :
    parseProxyLine "h:8080:u:p" =
      (if (atoi "8080").isSome then
        some { server := "http://" ++ "h" ++ ":" ++ "8080", username := "u",
               password := "p" }
      else if (atoi "p").isSome then
        some { server := "http://" ++ "u" ++ ":" ++ "p", username := "h",
               password := "8080" }
      else none) :=
  c4_four_field_disambiguation "h:8080:u:p" "h" "8080" "u" "p" (by decide) (by decide)
    (by decide) (by decide) (by decide) (by decide) (by decide)

/-- C5 counterexample: the line "a@b:1:2:3" contains `@` and its part left of
the `@` ("a") does not split into exactly two `:`-delimited fields, so per
the claim the parser should reject it — but `parseProxyLine` falls through to
the 4-field colon rule and produces a credential (with the `@` inside the
host). -/
theorem c5_counterexample :
    parseProxyLine "a@b:1:2:3" = some ⟨"http://a@b:1", "2", "3"⟩ ∧
    splitGo "a@b:1:2:3" '@' = ["a", "b:1:2:3"] ∧
    (splitGo "a" ':').length ≠ 2 := by
  refine ⟨by decide, by decide, by decide⟩

/-- C5 amended: for a trimmed, non-comment, non-markdown line with no `://`
and containing `@`: when the line splits on `@` into exactly two parts, the
left part splits on `:` into exactly two fields, the right part splits on `:`
into exactly two fields and its second field parses as an integer, the parser
produces `server="http://host:port"` with the two credential fields; when any
of those conditions fails (so the `@` branch yields nothing) the line falls
through to the plain colon-split rules, which may still produce a credential. -/
theorem c5_at_branch_or_fallthrough (s : String)
    (htrim : trimSpace s = s) (hne : s ≠ "") (hhash : hasPre s "#" = false)
    (hmd : (containsSub s "[" && containsSub s "](") = false)
    (hurl : containsSub s "://" = false) (hat : containsSub s "@" = true) :
    (∀ l r u pw hs pt, splitGo s '@' = [l, r] → splitGo l ':' = [u, pw] →
      splitGo r ':' = [hs, pt] → (atoi pt).isSome = true →
      parseProxyLine s =
        some { server := "http://" ++ hs ++ ":" ++ pt, username := u, password := pw }) ∧
    (parseAt s = none → parseProxyLine s = parseColon s) := by
  have hp := parseProxyLine_plain s htrim hne hhash hmd hurl
  rw [if_pos (by simp [hat])] at hp
  constructor
  · intro l r u pw hs pt hsplitAt hsplitL hsplitR hnum
    have hAt : parseAt s = some
        { server := "http://" ++ hs ++ ":" ++ pt, username := u, password := pw } := by
      rw [parseAt, hsplitAt]
      dsimp only
      rw [hsplitL, hsplitR]
      dsimp only
      rw [if_pos hnum]
    rw [hp, hAt]
  · intro hnone
    rw [hp, hnone]

/-- C5 witness: the well-formed line "u:p@h:80" through the `@` branch. -/
theorem c5_witness :
    parseProxyLine "u:p@h:80" =
      some { server := "http://" ++ "h" ++ ":" ++ "80", username := "u",
             password := "p" } :=
  (c5_at_branch_or_fallthrough "u:p@h:80" (by decide) (by decide) (by decide) (by decide)
      (by decide) (by decide)).1
    "u:p" "h:80" "u" "p" "h" "80" (by decide) (by decide) (by decide) (by decide)

theorem mk_ne_empty (l : List Char) (h : l.isEmpty = false) : String.mk l ≠ "" := by
  intro hEq
  have hd : l = [] := congrArg String.data hEq
  rw [hd] at h
  exact absurd h (by decide)

theorem withCreds_server (base : ProxyConfig) (hadAt : Bool) (uinfo : List Char) :
    (withCreds base hadAt uinfo).server = base.server := by
  unfold withCreds
  split
  · split <;> rfl
  · rfl

theorem parseHostPort_shape (l host port : List Char)
    (h : parseHostPort l = some (host, port)) :
    host.isEmpty = false ∧ port.isEmpty = false ∧ port.all Char.isDigit = true := by
  unfold parseHostPort at h
  rcases hk : lastIdxOf ':' l with _ | k <;> rw [hk] at h
  · cases h
  · dsimp only at h
    by_cases h1 : (l.take k).isEmpty
    · rw [if_pos h1] at h; cases h
    rw [if_neg h1] at h
    by_cases h2 : ((l.drop (k + 1)).isEmpty || !((l.drop (k + 1)).all Char.isDigit)) = true
    · rw [if_pos h2] at h; cases h
    rw [if_neg h2] at h
    have hp := Option.some_inj.mp h
    injection hp with e1 e2
    subst e1
    subst e2
    simp only [Bool.or_eq_true, Bool.not_eq_true', not_or] at h2
    refine ⟨by simpa using h1, by simpa using h2.1, ?_⟩
    have := h2.2
    simpa using this

theorem parseURL_shape (s : String) (p : ProxyConfig) (h : parseURLLine s = some p) :
    ∃ scheme host port : String,
      p.server = scheme ++ "://" ++ host ++ ":" ++ port ∧ scheme ≠ "" ∧ port ≠ "" ∧
      port.data.all Char.isDigit = true := by
  unfold parseURLLine at h
  rcases hidx : findSubIdx "://".data s.data with _ | i <;> rw [hidx] at h
  · cases h
  · dsimp only at h
    by_cases hsch : ((s.data.take i).isEmpty = true)
    · rw [if_pos hsch] at h; cases h
    rw [if_neg hsch] at h
    split at h
    · cases h
    next hp hhp =>
      have heq := Option.some_inj.mp h
      subst heq
      obtain ⟨e1, e2, e3⟩ := parseHostPort_shape _ hp.1 hp.2 (by rw [hhp])
      refine ⟨String.mk (s.data.take i), String.mk hp.1, String.mk hp.2, ?_, ?_, ?_, ?_⟩
      · rw [withCreds_server]
        rfl
      · exact mk_ne_empty _ (by simpa using hsch)
      · exact mk_ne_empty _ e2
      · exact e3

theorem parseAt_shape (s : String) (p : ProxyConfig) (h : parseAt s = some p) :
    ∃ host port : String,
      p.server = "http://" ++ host ++ ":" ++ port ∧ (atoi port).isSome = true := by
  unfold parseAt at h
  repeat' split at h
  any_goals exact Option.noConfusion h
  all_goals
    have heq := Option.some_inj.mp h
  all_goals
    subst heq
  all_goals
    exact ⟨_, _, rfl, by assumption⟩

theorem parseColon_shape (s : String) (p : ProxyConfig) (h : parseColon s = some p) :
    ∃ host port : String,
      p.server = "http://" ++ host ++ ":" ++ port ∧ (atoi port).isSome = true := by
  unfold parseColon at h
  repeat' split at h
  any_goals exact Option.noConfusion h
  all_goals
    have heq := Option.some_inj.mp h
  all_goals
    subst heq
  all_goals
    exact ⟨_, _, rfl, by assumption⟩

/-- C6 counterexample: the line ":80" (the bare `HOST:PORT` rule with an empty
host) produces the credential with `server = "http://:80"`, whose host
component is empty: the produced server does not have the claimed
`scheme://host:port` form with a non-empty host. -/
theorem c6_counterexample :
    parseProxyLine ":80" = some ⟨"http://:80", "", ""⟩ ∧
    specServerForm "http://:80" = false := by
  refine ⟨by decide, by decide⟩

/-- C6 amended: every credential the parser produces carries a server of the
form `scheme://host:port` with a non-empty scheme — and that scheme is `http`
whenever the source line gave none, i.e. whenever the line (after trimming
and markdown unwrapping) contains no `://` — and a non-empty port that parses
as an integer (an all-digit run in the URI branch, an `Atoi`-accepted string
in the plain branches); but the host component may be empty; no
partially-constructed credential (one missing any server component) is ever
returned. -/
theorem c6_server_always_schemed (line : String) (p : ProxyConfig)
    (h : parseProxyLine line = some p) :
    ∃ scheme host port : String,
      p.server = scheme ++ "://" ++ host ++ ":" ++ port ∧ scheme ≠ "" ∧
      (containsSub (mdUnwrap (trimSpace line)) "://" = false → scheme = "http") ∧
      port ≠ "" ∧
      (port.data.all Char.isDigit = true ∨ (atoi port).isSome = true) := by
  unfold parseProxyLine at h
  dsimp only at h
  split at h
  · cases h
  · split at h
    next hyes =>
      obtain ⟨sch, host, port, h1, h2, h3, h4⟩ := parseURL_shape _ p h
      refine ⟨sch, host, port, h1, h2, ?_, h3, Or.inl h4⟩
      intro hno
      rw [hno] at hyes
      exact absurd hyes (by decide)
    next hyes =>
      split at h
      next p' hAt =>
        have heq := Option.some_inj.mp h
        subst heq
        by_cases hc : containsSub (mdUnwrap (trimSpace line)) "@" = true
        · rw [if_pos hc] at hAt
          obtain ⟨host, port, h1, h2⟩ := parseAt_shape _ _ hAt
          exact ⟨"http", host, port, by rw [h1]; rfl, by decide, fun _ => rfl,
            atoi_isSome_ne_empty port h2, Or.inr h2⟩
        · rw [if_neg hc] at hAt; cases hAt
      next hNone =>
        obtain ⟨host, port, h1, h2⟩ := parseColon_shape _ p h
        exact ⟨"http", host, port, by rw [h1]; rfl, by decide, fun _ => rfl,
          atoi_isSome_ne_empty port h2, Or.inr h2⟩

/-- C6 witness: the credential produced for "h:1", a line giving no scheme. -/
theorem c6_witness :
    ∃ scheme host port : String,
      (⟨"http://h:1", "", ""⟩ : ProxyConfig).server
        = scheme ++ "://" ++ host ++ ":" ++ port ∧ scheme ≠ "" ∧
      (containsSub (mdUnwrap (trimSpace "h:1")) "://" = false → scheme = "http") ∧
      port ≠ "" ∧
      (port.data.all Char.isDigit = true ∨ (atoi port).isSome = true) :=
  c6_server_always_schemed "h:1" ⟨"http://h:1", "", ""⟩ (by decide)
